import Mathlib

/-!
Shallow embedding of `run-clang-format.py` (StandardCyborg/XcodeClangFormatWarnings).

Source text is modelled as `List Char` (a Python `str` is a sequence of unicode
scalar characters); UTF-8 byte widths come from `Char.utf8Size`, matching
Python's `len(bytes(character, 'utf8'))`.  Fallible operations (Python code
that can raise `IndexError`) return `Option`.  External collaborators
(the `clang-format` subprocess, `git status`, the filesystem) are inputs to
the embedded functions, exactly as their results feed the in-repo code.
-/

namespace ClangFormatWarnings

/-- Total UTF-8 byte width of a character sequence. -/
def utf8Len : List Char → Nat
  | [] => 0
  | c :: cs => c.utf8Size + utf8Len cs

/-- Python indexing `s[i]` on a string: negative indices count from the end;
an index outside the valid range raises `IndexError` (here: `none`). -/
def pyIndex (s : List Char) (i : Int) : Option Char :=
  let j : Int := if i < 0 then (s.length : Int) + i else i
  if j < 0 then none else s[j.toNat]?

/-- Clamp one Python slice endpoint to `[0, n]` (negative counts from the end). -/
def pySliceIdx (n : Nat) (i : Int) : Nat :=
  if i < 0 then ((n : Int) + i).toNat else min i.toNat n

/-- Python slicing `s[a:b]`: endpoints are clamped, never raising. -/
def pySlice (s : List Char) (a b : Int) : List Char :=
  (s.take (pySliceIdx s.length b)).drop (pySliceIdx s.length a)

/-- Python `text.replace("\n", "\\n")` on a character sequence. -/
def escapeNewlines : List Char → List Char
  | [] => []
  | c :: cs => (if c = '\n' then ['\\', 'n'] else [c]) ++ escapeNewlines cs

/-- Decimal rendering of a natural number, as Python `"{}".format(n)`. -/
def natToChars (n : Nat) : List Char :=
  (Nat.repr n).toList

/-- Python `haystack.find(needle) != -1`: does `needle` occur as a contiguous
substring of `haystack`? -/
def containsSubstring (needle : List Char) : List Char → Bool
  | [] => needle.isPrefixOf []
  | c :: cs => needle.isPrefixOf (c :: cs) || containsSubstring needle cs

/-- `should_ignore_replacement` (lines 102-108): drop the record when the
original text starts with a newline plus four spaces and the replacement
starts with two newlines. -/
def should_ignore_replacement (original_text replacement_text : List Char) : Bool :=
  ("\n    ".toList).isPrefixOf original_text && ("\n\n".toList).isPrefixOf replacement_text

/-- Loop body of `line_number_from_offset` (lines 111-132).  The list argument
is the remaining suffix of `file_string` from index `i`; `character_offset`
is the mutable variable of the Python loop.  Reading past the end of the
string raises `IndexError` (`none`). -/
def lnfoAux : List Char → Nat → Nat → Int → Int → Option (Nat × Nat × Int)
  | [], line_number, column, i, character_offset =>
    if i < character_offset then none
    else some (line_number, column, character_offset)
  | c :: cs, line_number, column, i, character_offset =>
    if i < character_offset then
      if c = '\n' then
        lnfoAux cs (line_number + 1) 0 (i + 1) (character_offset - ((c.utf8Size : Int) - 1))
      else
        lnfoAux cs line_number (column + 1) (i + 1) (character_offset - ((c.utf8Size : Int) - 1))
    else some (line_number, column, character_offset)

/-- `line_number_from_offset` (lines 111-132): walk the text from the start,
converting the byte offset into a `(line, column, character_offset)` triple. -/
def line_number_from_offset (file_string : List Char) (byte_offset : Nat) :
    Option (Nat × Nat × Int) :=
  lnfoAux file_string 1 0 0 byte_offset

/-- `build_warning_message` (lines 135-153).  `replacement_offset` is the
character index produced by `line_number_from_offset`; indexing out of range
raises (`none`). -/
def build_warning_message (replacement_text : List Char) (replacement_length : Nat)
    (replacement_offset : Int) (file_string : List Char) : Option (List Char) :=
  if replacement_text = [] then
    if replacement_length = 1 then
      match pyIndex file_string replacement_offset with
      | none => none
      | some c => some (if c = ' ' then "remove space".toList else "remove character".toList)
    else
      some ("remove next ".toList ++ natToChars replacement_length ++ " chars".toList)
  else
    if replacement_length = 0 then
      some (if replacement_text = [' '] then "add space".toList
            else "add \"".toList ++ replacement_text ++ "\"".toList)
    else if replacement_length = 1 then
      match pyIndex file_string replacement_offset with
      | none => none
      | some c =>
        some ("replace ".toList ++ (if c = '\n' then "newline".toList else "char".toList) ++
          " with \"".toList ++ replacement_text ++ "\"".toList)
    else if replacement_length = 2 ∧ replacement_text = [' '] then
      some ("remove a space".toList)
    else
      match pyIndex file_string replacement_offset with
      | none => none
      | some c =>
        if c = '\n' ∧ replacement_length = 1 then
          some ("remove a newline".toList)
        else if containsSubstring ("#include".toList) replacement_text ∧ 9 < replacement_length then
          some ("alphabetize headers".toList)
        else
          some ("replace next ".toList ++ natToChars replacement_length ++
            " chars with \"".toList ++ replacement_text ++ "\"".toList)

/-- `build_warning_message_details` (lines 155-165): up to 15 characters of
context on each side, with the replacement spliced in and newlines escaped. -/
def build_warning_message_details (replacement_text : List Char) (replacement_length : Nat)
    (replacement_offset : Int) (file_string : List Char) : List Char :=
  let surrounding_character_count : Int := 15
  let surrounding_text_start := max 0 (replacement_offset - surrounding_character_count)
  let surrounding_text_end :=
    min ((file_string.length : Int)) (replacement_offset + surrounding_character_count)
  let surrounding_text_with_replacement :=
    pySlice file_string surrounding_text_start replacement_offset ++
    replacement_text ++
    pySlice file_string (replacement_offset + (replacement_length : Int))
      (surrounding_text_end + (replacement_length : Int))
  "  ➡️  …".toList ++ escapeNewlines surrounding_text_with_replacement

/-- One replacement record from clang-format's XML stream: byte offset,
byte length, replacement text (`replacement.text or ""`). -/
structure Replacement where
  offset : Nat
  length : Nat
  text : List Char
deriving DecidableEq

/-- Loop body of `run_clang_format_on_file` (lines 75-99) for a single record:
`none` when Python raises, `some none` when the record is suppressed, and
`some (some line)` when a diagnostic line is printed. -/
def process_replacement (absolute_filename : List Char) (file_string : List Char)
    (r : Replacement) : Option (Option (List Char)) :=
  match line_number_from_offset file_string r.offset with
  | none => none
  | some (replacement_line_number, replacement_column, replacement_offset) =>
    let original_text := pySlice file_string replacement_offset
      (replacement_offset + (r.length : Int))
    if should_ignore_replacement original_text r.text then
      some none
    else
      let replacement_text := escapeNewlines r.text
      let warning_header :=
        absolute_filename ++ ":".toList ++ natToChars replacement_line_number ++
          ":".toList ++ natToChars replacement_column ++
          ": warning: Style nit @ col ".toList ++ natToChars replacement_column ++
          ": ".toList
      match build_warning_message replacement_text r.length replacement_offset file_string with
      | none => none
      | some warning_message =>
        some (some (warning_header ++ warning_message ++
          build_warning_message_details replacement_text r.length replacement_offset file_string))

/-- `run_clang_format_on_file` over the parsed record list: the diagnostics
printed, in order, or `none` when a record raises (aborting the file). -/
def run_clang_format_on_file (absolute_filename : List Char) (file_string : List Char) :
    List Replacement → Option (List (List Char))
  | [] => some []
  | r :: rs =>
    match process_replacement absolute_filename file_string r with
    | none => none
    | some none => run_clang_format_on_file absolute_filename file_string rs
    | some (some line) =>
      (run_clang_format_on_file absolute_filename file_string rs).map (line :: ·)

/-- One candidate file: its name, contents, and the replacement records the
external formatter produced for it. -/
structure FileInput where
  filename : List Char
  contents : List Char
  replacements : List Replacement

/-- The per-file loop of `run_clang_format` (lines 35-42): process each
candidate file in order, concatenating the diagnostics printed; an exception
while processing a file propagates (`none`). -/
def run_all_files : List FileInput → Option (List (List Char))
  | [] => some []
  | f :: fs =>
    match run_clang_format_on_file f.filename f.contents f.replacements with
    | none => none
    | some out =>
      match run_all_files fs with
      | none => none
      | some rest => some (out ++ rest)

/-- `run_clang_format` (lines 23-49), external collaborators abstracted as
inputs: whether `shutil.which` finds the binary, whether a `.clang-format`
file is found, and the per-file inputs.  Result: `none` when a file's
processing raises (Python exits with a traceback), otherwise
`some (exit code, diagnostics printed)`; the two early `exit(-1)` calls
yield the nonzero code before any file is processed. -/
def run_clang_format (clang_format_installed : Bool) (clang_format_file_found : Bool)
    (files : List FileInput) : Option (Int × List (List Char)) :=
  if !clang_format_installed then some (-1, [])
  else if !clang_format_file_found then some (-1, [])
  else
    match run_all_files files with
    | none => none
    | some outs => some (0, outs)

/-- Modelled from the spec (§4.1, §8): the reference position walk.  Starting
at line 1, column 0, consume characters while decrementing the remaining
byte budget by each character's UTF-8 width; line increments and column
resets on a newline, column increments otherwise; stop when the budget is
exactly 0.  `none` when the byte offset is not a character boundary inside
the text. -/
def specWalkPosition : List Char → Nat → Nat → Nat → Option (Nat × Nat)
  | _, line, col, 0 => some (line, col)
  | [], _, _, _ + 1 => none
  | ch :: cs, line, col, n + 1 =>
    if ch.utf8Size ≤ n + 1 then
      if ch = '\n' then specWalkPosition cs (line + 1) 0 (n + 1 - ch.utf8Size)
      else specWalkPosition cs line (col + 1) (n + 1 - ch.utf8Size)
    else none

/-- Advance a `(line, column)` pair over a character sequence, with the walk's
newline rule. -/
def advancePos : List Char → Nat × Nat → Nat × Nat
  | [], p => p
  | c :: cs, p => advancePos cs (if c = '\n' then (p.1 + 1, 0) else (p.1, p.2 + 1))

/-! ### Helper lemmas -/

theorem utf8Len_append (a b : List Char) : utf8Len (a ++ b) = utf8Len a + utf8Len b := by
  induction a with
  | nil => simp [utf8Len]
  | cons c a ih => simp [utf8Len, ih]; omega

theorem utf8Len_all_one (a : List Char) (h : ∀ d ∈ a, d.utf8Size = 1) :
    utf8Len a = a.length := by
  induction a with
  | nil => simp [utf8Len]
  | cons c a ih =>
    have hc : c.utf8Size = 1 := h c (by simp)
    have ha : utf8Len a = a.length := ih (fun d hd => h d (by simp [hd]))
    simp [utf8Len, hc, ha]
    omega

theorem append_ne_of_take_ne (a b x : List Char) (h : b.take a.length ≠ a) : a ++ x ≠ b := by
  intro he
  exact h (by rw [← he, List.take_left])

theorem lnfoAux_append (pre rest : List Char) :
    ∀ (line col : Nat) (i : Int),
      lnfoAux (pre ++ rest) line col i (i + (utf8Len pre : Int)) =
        some ((advancePos pre (line, col)).1, (advancePos pre (line, col)).2,
          i + (pre.length : Int)) := by
  induction pre with
  | nil =>
    intro line col i
    cases rest with
    | nil => simp [lnfoAux, utf8Len, advancePos]
    | cons c cs => simp [lnfoAux, utf8Len, advancePos]
  | cons c pre ih =>
    intro line col i
    have hw : (1 : Int) ≤ (c.utf8Size : Int) := by exact_mod_cast Char.utf8Size_pos c
    have hL : (0 : Int) ≤ (utf8Len pre : Int) := by positivity
    have hcond : i < i + ((utf8Len (c :: pre) : Nat) : Int) := by
      simp only [utf8Len]; push_cast; omega
    have harg : i + ((utf8Len (c :: pre) : Nat) : Int) - ((c.utf8Size : Int) - 1) =
        (i + 1) + ((utf8Len pre : Nat) : Int) := by
      simp only [utf8Len]; push_cast; ring
    simp only [List.cons_append, lnfoAux, if_pos hcond, harg, List.append_eq]
    by_cases hc : c = '\n'
    · rw [if_pos hc, ih (line + 1) 0 (i + 1)]
      simp [advancePos, hc]
      ring
    · rw [if_neg hc, ih line (col + 1) (i + 1)]
      simp [advancePos, hc]
      ring

theorem lnfoAux_overrun (cs : List Char) :
    ∀ (line col : Nat) (i character_offset : Int),
      i + (utf8Len cs : Int) < character_offset →
      lnfoAux cs line col i character_offset = none := by
  induction cs with
  | nil =>
    intro line col i off h
    simp only [utf8Len, Nat.cast_zero, add_zero] at h
    simp [lnfoAux, if_pos h]
  | cons c cs ih =>
    intro line col i off h
    have hw : (1 : Int) ≤ (c.utf8Size : Int) := by exact_mod_cast Char.utf8Size_pos c
    have hL : (0 : Int) ≤ (utf8Len cs : Int) := by positivity
    simp only [utf8Len] at h
    push_cast at h
    have h1 : i < off := by omega
    have h2 : (i + 1) + (utf8Len cs : Int) < off - ((c.utf8Size : Int) - 1) := by omega
    simp only [lnfoAux, if_pos h1]
    by_cases hc : c = '\n'
    · rw [if_pos hc]; exact ih _ _ _ _ h2
    · rw [if_neg hc]; exact ih _ _ _ _ h2

theorem lnfoAux_of_specWalk (cs : List Char) :
    ∀ (line col n l c : Nat) (i : Int),
      specWalkPosition cs line col n = some (l, c) →
      ∃ co, lnfoAux cs line col i (i + (n : Int)) = some (l, c, co) := by
  induction cs with
  | nil =>
    intro line col n l c i h
    cases n with
    | zero =>
      simp only [specWalkPosition, Option.some.injEq, Prod.mk.injEq] at h
      exact ⟨i, by simp [lnfoAux, h.1, h.2]⟩
    | succ m => simp [specWalkPosition] at h
  | cons ch cs ih =>
    intro line col n l c i h
    cases n with
    | zero =>
      simp only [specWalkPosition, Option.some.injEq, Prod.mk.injEq] at h
      exact ⟨i, by simp [lnfoAux, h.1, h.2]⟩
    | succ m =>
      simp only [specWalkPosition] at h
      by_cases hsz : ch.utf8Size ≤ m + 1
      · rw [if_pos hsz] at h
        have hw : 0 < ch.utf8Size := Char.utf8Size_pos ch
        have hcond : i < i + (((m + 1 : Nat)) : Int) := by push_cast; omega
        have harg : i + (((m + 1 : Nat)) : Int) - ((ch.utf8Size : Int) - 1) =
            (i + 1) + (((m + 1 - ch.utf8Size : Nat)) : Int) := by
          push_cast [Nat.cast_sub hsz]
          ring
        by_cases hch : ch = '\n'
        · rw [if_pos hch] at h
          obtain ⟨co, hco⟩ := ih (line + 1) 0 (m + 1 - ch.utf8Size) l c (i + 1) h
          refine ⟨co, ?_⟩
          simp only [lnfoAux, if_pos hcond, if_pos hch, harg]
          exact hco
        · rw [if_neg hch] at h
          obtain ⟨co, hco⟩ := ih line (col + 1) (m + 1 - ch.utf8Size) l c (i + 1) h
          refine ⟨co, ?_⟩
          simp only [lnfoAux, if_pos hcond, if_neg hch, harg]
          exact hco
      · rw [if_neg hsz] at h
        cases h

/-! ### Claims -/

/-- C1: for every source text and every replacement record whose byte offset
lies on a character boundary within the text (i.e. the spec's reference walk
from the start of the file — line starting at 1 and incremented on each
newline, column starting at 0, reset on newline and incremented per other
character, stopping when the cumulative UTF-8 byte width equals the byte
offset — succeeds), the `(line, column)` pair reported by
`line_number_from_offset` is exactly the pair the reference walk computes. -/
theorem C1_reported_position_correct (file_string : List Char) (byte_offset l c : Nat)
    (h : specWalkPosition file_string 1 0 byte_offset = some (l, c)) :
    ∃ co, line_number_from_offset file_string byte_offset = some (l, c, co) := by
  obtain ⟨co, hco⟩ := lnfoAux_of_specWalk file_string 1 0 byte_offset l c 0 h
  exact ⟨co, by simpa [line_number_from_offset] using hco⟩

/-- C1 witness: on the text `a\n€b` at byte offset 5 (a character boundary:
1 + 1 + 3 bytes), the reference walk gives line 2, column 1, and so does the
translator. -/
theorem C1_witness :
    ∃ co, line_number_from_offset ['a', '\n', '€', 'b'] 5 = some (2, 1, co) :=
  C1_reported_position_correct ['a', '\n', '€', 'b'] 5 2 1 (by decide)

/-- C2: for a record whose byte offset N falls immediately after a 3-byte
UTF-8 character, the character index returned by `line_number_from_offset`
equals the number of characters whose cumulative byte widths sum to N
(so multi-byte characters preceding an edit do not shift the reported
position); and when every character before the 3-byte one is 1-byte wide,
that number is exactly N - 2. -/
theorem C2_byte_offset_to_char_index (pre : List Char) (ch : Char) (rest : List Char)
    (h3 : ch.utf8Size = 3) :
    (∃ l c, line_number_from_offset (pre ++ ch :: rest) (utf8Len pre + 3) =
      some (l, c, (((pre ++ [ch]).length : Nat) : Int))) ∧
    ((∀ d ∈ pre, d.utf8Size = 1) →
      (((pre ++ [ch]).length : Nat) : Int) = ((utf8Len pre + 3 : Nat) : Int) - 2) := by
  constructor
  · have key := lnfoAux_append (pre ++ [ch]) rest 1 0 0
    have e1 : (pre ++ [ch]) ++ rest = pre ++ ch :: rest := by simp
    have e2 : utf8Len (pre ++ [ch]) = utf8Len pre + 3 := by
      rw [utf8Len_append]; simp [utf8Len, h3]
    rw [e1, e2] at key
    simp only [zero_add] at key
    exact ⟨_, _, key⟩
  · intro h1
    have hall := utf8Len_all_one pre h1
    simp only [List.length_append, List.length_cons, List.length_nil]
    push_cast
    omega

/-- C2 witness: in the text `ab€c`, byte offset 5 sits immediately after the
3-byte `€`; the translator reports character index 3 (= the 3 characters
`a`, `b`, `€` whose widths sum to 5), which equals 5 - 2. -/
theorem C2_witness :
    (∃ l c, line_number_from_offset (['a', 'b'] ++ '€' :: ['c']) (utf8Len ['a', 'b'] + 3) =
      some (l, c, (((['a', 'b'] ++ ['€']).length : Nat) : Int))) ∧
    ((∀ d ∈ ['a', 'b'], d.utf8Size = 1) →
      (((['a', 'b'] ++ ['€']).length : Nat) : Int) =
        ((utf8Len ['a', 'b'] + 3 : Nat) : Int) - 2) :=
  C2_byte_offset_to_char_index ['a', 'b'] '€' ['c'] (by decide)

/-- C3 counterexample: a record whose original text begins with a newline
followed by indentation whitespace (here a tab) and whose replacement begins
with two newlines is NOT suppressed: the code requires the original to start
with a newline plus exactly four spaces, so this record produces a
diagnostic line, refuting the claim as stated. -/
theorem C3_counterexample :
    process_replacement ("f".toList) ("ab\n\t cd".toList) ⟨2, 3, "\n\n".toList⟩ =
      some (some ("f:1:2: warning: Style nit @ col 2: replace next 3 chars with \"\\n\\n\"  ➡️  …ab\\n\\ncd".toList)) := by
  decide

/-- C3 (amended): a record is suppressed — no diagnostic line is emitted —
when the original text at its offset begins with a newline followed by four
spaces and its replacement text begins with two consecutive newlines. -/
theorem C3_suppression (absolute_filename file_string : List Char) (r : Replacement)
    (l c : Nat) (co : Int)
    (hpos : line_number_from_offset file_string r.offset = some (l, c, co))
    (horig : ("\n    ".toList).isPrefixOf
      (pySlice file_string co (co + (r.length : Int))) = true)
    (hrepl : ("\n\n".toList).isPrefixOf r.text = true) :
    process_replacement absolute_filename file_string r = some none := by
  have hig : should_ignore_replacement
      (pySlice file_string co (co + (r.length : Int))) r.text = true := by
    simp only [should_ignore_replacement, horig, hrepl, Bool.and_self]
  simp [process_replacement, hpos, hig]

/-- C3 witness: in `ab\n    cd`, the record at offset 2 of length 5 has
original text `"\n    "` and replacement starting `"\n\n"`; it is suppressed. -/
theorem C3_witness :
    process_replacement ("f".toList) ("ab\n    cd".toList) ⟨2, 5, "\n\nX".toList⟩ =
      some none :=
  C3_suppression ("f".toList) ("ab\n    cd".toList) ⟨2, 5, "\n\nX".toList⟩ 1 2 2
    (by decide) (by decide) (by decide)

/-- C4 counterexample: with original byte length 0, the record whose
replacement text is `"#include <a.h>\n#include <b.h>\n"` is classified as an
insertion (`add "..."`), not as `alphabetize headers`, refuting the claim's
"for any original byte length". -/
theorem C4_counterexample :
    build_warning_message ("#include <a.h>\n#include <b.h>\n".toList) 0 0 [] ≠
      some ("alphabetize headers".toList) := by
  decide

/-- C4 (amended): a record whose replacement text contains the substring
`#include` and whose ORIGINAL byte length exceeds 9 (`len("#include ")`),
with the record's character offset a valid index into the text, is
classified `alphabetize headers`. -/
theorem C4_alphabetize_headers (replacement_text : List Char) (replacement_length : Nat)
    (replacement_offset : Int) (file_string : List Char) (ch : Char)
    (hfind : containsSubstring ("#include".toList) replacement_text = true)
    (hlen : 9 < replacement_length)
    (hidx : pyIndex file_string replacement_offset = some ch) :
    build_warning_message replacement_text replacement_length replacement_offset file_string =
      some ("alphabetize headers".toList) := by
  have hne : ¬ replacement_text = [] := by
    rintro rfl
    exact absurd hfind (by decide)
  have hz : ¬ replacement_length = 0 := by omega
  have h1 : ¬ replacement_length = 1 := by omega
  have h2 : ¬ (replacement_length = 2 ∧ replacement_text = [' ']) := fun hx => by omega
  have h3 : ¬ (ch = '\n' ∧ replacement_length = 1) := fun hx => h1 hx.2
  simp [build_warning_message, hne, hz, h1, h2, h3, hidx, hlen]
  simpa using hfind

/-- C4 witness: replacement text `"#include <a.h>\n#include <b.h>\n"` with
original length 10 at offset 0 of the text `x` is classified
`alphabetize headers`. -/
theorem C4_witness :
    build_warning_message ("#include <a.h>\n#include <b.h>\n".toList) 10 0 ['x'] =
      some ("alphabetize headers".toList) :=
  C4_alphabetize_headers ("#include <a.h>\n#include <b.h>\n".toList) 10 0 ['x'] 'x'
    (by decide) (by decide) (by decide)

/-- C5 counterexample: a record whose offset-plus-length overruns the text
(`abc`, offset 1, length 100) does NOT fail: the slice silently truncates
and a `remove next 100 chars` diagnostic is printed, refuting the claim for
the offset-plus-length half of its disjunction. -/
theorem C5_counterexample :
    process_replacement ("f".toList) ("abc".toList) ⟨1, 100, []⟩ =
      some (some ("f:1:1: warning: Style nit @ col 1: remove next 100 chars  ➡️  …a".toList)) := by
  decide

/-- C5 (amended): a record whose byte offset exceeds the total UTF-8 byte
length of the source text makes the translator raise (`IndexError` in the
position walk) and emit no diagnostic; offset-plus-length overruns are
instead silently truncated by Python slicing (see the counterexample). -/
theorem C5_offset_out_of_range (absolute_filename file_string : List Char) (r : Replacement)
    (h : utf8Len file_string < r.offset) :
    process_replacement absolute_filename file_string r = none := by
  have hpos : line_number_from_offset file_string r.offset = none := by
    apply lnfoAux_overrun
    omega
  simp [process_replacement, hpos]

/-- C5 witness: on the two-byte text `ab`, the record at byte offset 5
raises and yields no diagnostic. -/
theorem C5_witness :
    process_replacement ("f".toList) ("ab".toList) ⟨5, 0, []⟩ = none :=
  C5_offset_out_of_range ("f".toList) ("ab".toList) ⟨5, 0, []⟩ (by decide)

/-- C6: end-to-end scenario: in the source text
`"int x = 1;\n\n    int y = 2;\n"`, the record at byte offset 11 (the
blank line's trailing whitespace) with original text `"\n    "` and
replacement `"\n\n"` is suppressed: no diagnostic is emitted. -/
theorem C6_end_to_end_suppression :
    process_replacement ("f".toList) ("int x = 1;\n\n    int y = 2;\n".toList)
      ⟨11, 5, "\n\n".toList⟩ = some none := by
  decide

/-- C7: for every run that completes without an internal exception
(`run_clang_format` returns `some (code, out)`), the exit status is zero iff
both the `clang-format` binary is installed and a `.clang-format` file is
found; in particular it is nonzero exactly when a required external resource
is missing, and zero even when diagnostic lines were printed. -/
theorem C7_exit_status (clang_format_installed clang_format_file_found : Bool)
    (files : List FileInput) (code : Int) (out : List (List Char))
    (h : run_clang_format clang_format_installed clang_format_file_found files =
      some (code, out)) :
    code = 0 ↔ (clang_format_installed = true ∧ clang_format_file_found = true) := by
  cases clang_format_installed with
  | false =>
    simp only [run_clang_format] at h
    simp only [Bool.not_false, if_true, Option.some.injEq, Prod.mk.injEq] at h
    rw [← h.1]
    exact iff_of_false (by norm_num) (by simp)
  | true =>
    cases clang_format_file_found with
    | false =>
      simp [run_clang_format] at h
      rw [← h.1]
      exact iff_of_false (by norm_num) (by simp)
    | true =>
      cases hm : run_all_files files with
      | none => simp [run_clang_format, hm] at h
      | some outs =>
        simp [run_clang_format, hm] at h
        simp [← h.1]

/-- C7 witness: with the binary installed, a config file found and no
candidate files, the run completes with exit code 0. -/
theorem C7_witness : (0 : Int) = 0 ↔ (true = true ∧ true = true) :=
  C7_exit_status true true [] 0 [] rfl

/-- C8: the translator is deterministic: two runs on the same immutable
(source text, replacement records) input produce identical output —
the same diagnostic lines, in the same order, with the same suppression
decisions. -/
theorem C8_deterministic (absolute_filename file_string : List Char)
    (replacements : List Replacement) (out₁ out₂ : Option (List (List Char)))
    (h₁ : run_clang_format_on_file absolute_filename file_string replacements = out₁)
    (h₂ : run_clang_format_on_file absolute_filename file_string replacements = out₂) :
    out₁ = out₂ := h₁ ▸ h₂ ▸ rfl

/-- C8 witness: two runs of the translator on an empty file with no records
both yield the same (empty) diagnostic list. -/
theorem C8_witness : (some [] : Option (List (List Char))) = some [] :=
  C8_deterministic [] [] [] (some []) (some []) rfl rfl

/-- C9: the message classifier never returns `remove a newline`: the branch
producing it requires non-empty replacement text together with original
length 1, a combination already caught by the earlier `replace ... with ...`
rule, so that branch is unreachable. -/
theorem C9_never_remove_a_newline (replacement_text : List Char) (replacement_length : Nat)
    (replacement_offset : Int) (file_string : List Char) :
    build_warning_message replacement_text replacement_length replacement_offset file_string ≠
      some ("remove a newline".toList) := by
  by_cases h0 : replacement_text = []
  · by_cases h1 : replacement_length = 1
    · cases hpi : pyIndex file_string replacement_offset with
      | none => simp [build_warning_message, h0, h1, hpi]
      | some c =>
        simp only [build_warning_message, h0, if_true, if_pos h1, hpi, ne_eq,
          Option.some.injEq]
        split <;> decide
    · simp only [build_warning_message, h0, if_true, if_neg h1, ne_eq, Option.some.injEq,
        List.append_assoc]
      apply append_ne_of_take_ne
      decide
  · by_cases hz : replacement_length = 0
    · simp only [build_warning_message, if_neg h0, if_pos hz, ne_eq, Option.some.injEq,
        List.append_assoc]
      split
      · decide
      · apply append_ne_of_take_ne
        decide
    · by_cases h1 : replacement_length = 1
      · cases hpi : pyIndex file_string replacement_offset with
        | none => simp [build_warning_message, h0, hz, h1, hpi]
        | some c =>
          simp only [build_warning_message, if_neg h0, if_neg hz, if_pos h1, hpi, ne_eq,
            Option.some.injEq, List.append_assoc]
          apply append_ne_of_take_ne
          decide
      · by_cases h2 : replacement_length = 2 ∧ replacement_text = [' ']
        · simp only [build_warning_message, if_neg h0, if_neg hz, if_neg h1, if_pos h2,
            ne_eq, Option.some.injEq]
          decide
        · cases hpi : pyIndex file_string replacement_offset with
          | none => simp [build_warning_message, h0, hz, h1, h2, hpi]
          | some c =>
            have h3 : ¬ (c = '\n' ∧ replacement_length = 1) := fun hx => h1 hx.2
            by_cases h4 : containsSubstring ("#include".toList) replacement_text ∧
                9 < replacement_length
            · simp only [build_warning_message, if_neg h0, if_neg hz, if_neg h1, if_neg h2,
                hpi, if_neg h3, if_pos h4, ne_eq, Option.some.injEq]
              decide
            · simp only [build_warning_message, if_neg h0, if_neg hz, if_neg h1, if_neg h2,
                hpi, if_neg h3, if_neg h4, ne_eq, Option.some.injEq, List.append_assoc]
              apply append_ne_of_take_ne
              decide

/-- C10: a no-op record — empty replacement text and original byte length 0 —
is classified `remove next 0 chars` (the pure-deletion arm with the generic
count message), not treated as an insertion and not an error. -/
theorem C10_noop_edit (replacement_offset : Int) (file_string : List Char) :
    build_warning_message [] 0 replacement_offset file_string =
      some ("remove next 0 chars".toList) := by
  rfl

end ClangFormatWarnings
